import Mathlib

/-!
Shallow embedding, in Lean 4, of the relay server of this repository
(`src/unnamed/part_000`, a complete `server.js`; `src/server.js` is an earlier
variant of the same file that lacks the explain endpoints and leaves
`generationConfig` empty).  Strings manipulated by the JavaScript code are
modelled as `String`/`List Char`; machine-level details (event loop, actual
HTTP transport) are abstracted into an explicit upstream-outcome parameter.
-/

set_option maxRecDepth 4000

namespace CodeBot

/-! ### JavaScript primitives used by the server -/

/-- Characters matched by the JavaScript regular-expression class `\s`
(ECMA-262 WhiteSpace ∪ LineTerminator). -/
def jsIsWS (c : Char) : Bool :=
  c = ' ' || c = '\t' || c = '\n' || c = '\r' ||
  c.toNat = 0x0b || c.toNat = 0x0c ||
  c.toNat = 0xa0 || c.toNat = 0x1680 ||
  (0x2000 ≤ c.toNat && c.toNat ≤ 0x200a) ||
  c.toNat = 0x2028 || c.toNat = 0x2029 || c.toNat = 0x202f ||
  c.toNat = 0x205f || c.toNat = 0x3000 || c.toNat = 0xfeff

/-- The `String.prototype.trim` of JavaScript: remove leading and trailing
`\s` characters (modelled on `List Char`). -/
def jsTrim (l : List Char) : List Char :=
  ((l.dropWhile jsIsWS).reverse.dropWhile jsIsWS).reverse

/-- Truthiness of an optional JavaScript string (`undefined` or `''` are
falsy, every other string is truthy). -/
def strTruthy : Option String → Bool
  | none => false
  | some s => s != ""

/-! ### Chunking Splitter (`/api/explain/stream` handler, part_000 lines 107-122) -/

/-- A character that ends a sentence for the split pattern of
part_000 line 112: the lookbehind class `[.?!]`. -/
def isSentEnd (c : Char) : Bool :=
  c = '.' || c = '?' || c = '!'

/-- Head test used for the lookbehind: the previously scanned character
(stored reversed in `acc`) is a sentence terminator. -/
def prevIsSentEnd (acc : List Char) : Bool :=
  match acc with
  | [] => false
  | p :: _ => isSentEnd p

/-- Scanner for `explanation.split(/(?<=[.?!])\s+/)` (part_000 line 112).
`skipping = true` means we are inside the whitespace run of a match
(the separator); `acc` holds the characters of the current segment in
reverse.  A match is a maximal run of `\s` characters whose preceding
character is one of `.?!`. -/
def splitAux (skipping : Bool) (acc : List Char) : List Char → List (List Char)
  | [] => [acc.reverse]
  | c :: rest =>
    if skipping then
      if jsIsWS c then splitAux true [] rest
      else splitAux false [c] rest
    else if jsIsWS c && prevIsSentEnd acc then
      acc.reverse :: splitAux true [] rest
    else
      splitAux false (c :: acc) rest

/-- The sentence list `explanation.split(/(?<=[.?!])\s+/)` of part_000
line 112. -/
def splitSentences (text : List Char) : List (List Char) :=
  splitAux false [] text

/-- The hard chunk limit `maxChunk` of part_000 line 108. -/
def maxChunk : Nat := 240

/-- One iteration of the chunking loop of part_000 lines 114-121; the state is
the pair `(chunks, buf)`.  `(buf + ' ' + s).length` is
`buf.length + 1 + s.length`. -/
def chunkStep (st : List (List Char) × List Char) (s : List Char) :
    List (List Char) × List Char :=
  if st.2.length + 1 + s.length > maxChunk then
    if st.2.isEmpty then (st.1 ++ [jsTrim s], [])
    else (st.1 ++ [jsTrim st.2], s)
  else
    (st.1, if st.2.isEmpty then s else st.2 ++ ' ' :: s)

/-- The whole chunking loop (part_000 lines 113-122), including the final
flush `if (buf) chunks.push(buf.trim())`. -/
def runChunks (sents : List (List Char)) : List (List Char) :=
  match sents.foldl chunkStep ([], []) with
  | (chunks, buf) => if buf.isEmpty then chunks else chunks ++ [jsTrim buf]

/-- Chunks produced for a given full explanation text (part_000 lines
107-122): split into sentences, then greedily regroup under the 240-character
limit. -/
def explainChunks (text : List Char) : List (List Char) :=
  runChunks (splitSentences text)

/-! ### Local Fallback Responder (`localFallback`, part_000 lines 141-153) -/

/-- ASCII lowercasing, one character of `String.prototype.toLowerCase`.
The messages and keywords involved are ASCII; mappings of non-ASCII
letters are not modelled. -/
def toLowerJS (c : Char) : Char :=
  if 65 ≤ c.toNat && c.toNat ≤ 90 then Char.ofNat (c.toNat + 32) else c

/-- Characters of the JavaScript word class `\w` (`[A-Za-z0-9_]`), which
also defines the boundary assertion `\b`. -/
def isWordChar (c : Char) : Bool :=
  (97 ≤ c.toNat && c.toNat ≤ 122) || (65 ≤ c.toNat && c.toNat ≤ 90) ||
  (48 ≤ c.toNat && c.toNat ≤ 57) || c = '_'

/-- A word boundary holds before/after a word character when the adjacent
character is absent or not a word character. -/
def boundaryOk : Option Char → Bool
  | none => true
  | some c => !isWordChar c

/-- Does the word `w` occur at the current position (`prev` being the
preceding character) with `\b` on both sides? -/
def matchesWordAt (w : List Char) (prev : Option Char) (cs : List Char) : Bool :=
  boundaryOk prev && w.isPrefixOf cs && boundaryOk (cs.drop w.length).head?

/-- Scan the message for any of the words, each surrounded by `\b`:
the semantics of `/\b(w1|w2|...)\b/.test(msg)`. -/
def hasWordFrom (ws : List (List Char)) (prev : Option Char) (cs : List Char) : Bool :=
  (ws.any fun w => matchesWordAt w prev cs) ||
  (match cs with
   | [] => false
   | c :: rest => hasWordFrom ws (some c) rest)

/-- Test of `/\b(w1|w2|...)\b/` against a whole message. -/
def testWords (ws : List (List Char)) (msg : List Char) : Bool :=
  hasWordFrom ws none msg

/-- Alternatives of the first category regex of part_000 line 143. -/
def workoutWords : List (List Char) :=
  ["workout".data, "exercise".data, "plan".data, "routine".data]

/-- Alternatives of the second category regex of part_000 line 146. -/
def dietWords : List (List Char) :=
  ["diet".data, "calorie".data, "protein".data, "meal".data]

/-- Alternatives of the third category regex of part_000 line 149. -/
def greetWords : List (List Char) :=
  ["hi".data, "hello".data, "hey".data]

/-- Canned reply of the workout branch (part_000 line 144). -/
def workoutReply : String :=
  "Sample full-body routine (local fallback):\n- Squats 3x10\n- Push-ups 3x8-12\n- Rows 3x8-12\n- Plank 3x30s\nDo this 3x/week. (This is the local fallback - enable Gemini API for richer replies.)"

/-- Canned reply of the diet branch (part_000 line 147). -/
def dietReply : String :=
  "Local diet tip: prioritize protein (1.6-2.2 g/kg), eat whole foods, and reduce processed sugars."

/-- Canned reply of the greeting branch (part_000 line 150). -/
def greetingReply : String :=
  "Hey — I'm FitBuddy. Ask me for workout plans, diet tips, or motivation."

/-- Catch-all reply of part_000 line 152. -/
def catchAllReply : String :=
  "I didn't understand. Try asking \"Give me a 30 minute full-body home workout\" or \"How many calories should I eat to lose weight?\""

/-- The rule-based fallback responder, part_000 lines 141-153.  Its argument
is the (string) chat message; `(message || '')` is the identity on strings
apart from `''`, on which every branch below behaves the same, so it is not
modelled separately. -/
def localFallback (message : String) : String :=
  let msg := message.data.map toLowerJS
  if testWords workoutWords msg then workoutReply
  else if testWords dietWords msg then dietReply
  else if testWords greetWords msg then greetingReply
  else catchAllReply

/-- Does the (lower-cased) message match any of the three keyword
categories of `localFallback`? -/
def matchesAnyCategory (message : String) : Bool :=
  let msg := message.data.map toLowerJS
  testWords workoutWords msg || testWords dietWords msg || testWords greetWords msg

/-! ### JSON values and `JSON.stringify` -/

/-- JSON values, as delivered by `res.json()` of the upstream call.
Numbers are modelled as integers (the status payloads involved carry no
fractional numbers). -/
inductive Json where
  | null
  | bool (b : Bool)
  | num (n : Int)
  | str (s : String)
  | arr (elems : List Json)
  | obj (fields : List (String × Json))

/-- Hexadecimal digit, lower case, as printed by `JSON.stringify` in
`\u00XX` escapes. -/
def hexDigit (n : Nat) : Char :=
  if n < 10 then Char.ofNat (48 + n) else Char.ofNat (87 + n)

/-- Two-digit hexadecimal rendering of a byte. -/
def hexByte (n : Nat) : String :=
  String.mk [hexDigit (n / 16), hexDigit (n % 16)]

/-- Escaping of a single character inside a JSON string literal, as done by
`JSON.stringify`. -/
def escChar (c : Char) : String :=
  if c = '"' then "\\\""
  else if c = '\\' then "\\\\"
  else if c = '\n' then "\\n"
  else if c = '\r' then "\\r"
  else if c = '\t' then "\\t"
  else if c.toNat = 8 then "\\b"
  else if c.toNat = 12 then "\\f"
  else if c.toNat < 32 then "\\u00" ++ hexByte c.toNat
  else String.singleton c

/-- Escaping of a whole string for a JSON string literal. -/
def jsonEscape (s : String) : String :=
  String.join (s.data.map escChar)

mutual

/-- The serialization `JSON.stringify(data)` used as the fallback return of
`callGemini` (part_000 line 77). -/
def stringifyJson : Json → String
  | .null => "null"
  | .bool b => cond b "true" "false"
  | .num n => toString n
  | .str s => "\"" ++ jsonEscape s ++ "\""
  | .arr l => "[" ++ stringifyArr l ++ "]"
  | .obj l => "\x7b" ++ stringifyObj l ++ "\x7d"

/-- Comma-separated serialization of array elements. -/
def stringifyArr : List Json → String
  | [] => ""
  | [j] => stringifyJson j
  | j :: rest => stringifyJson j ++ "," ++ stringifyArr rest

/-- Comma-separated serialization of object fields. -/
def stringifyObj : List (String × Json) → String
  | [] => ""
  | [(k, v)] => "\"" ++ jsonEscape k ++ "\":" ++ stringifyJson v
  | (k, v) :: rest =>
    "\"" ++ jsonEscape k ++ "\":" ++ stringifyJson v ++ "," ++ stringifyObj rest

end

/-- JavaScript truthiness of a JSON value (`NaN` is not modelled). -/
def jsTruthy : Json → Bool
  | .null => false
  | .bool b => b
  | .num n => n != 0
  | .str s => s != ""
  | .arr _ => true
  | .obj _ => true

/-- Property access `v?.key`: defined exactly on objects; on every other
value (and on `undefined`, modelled as `none` propagated by `Option.bind`)
the result is `undefined`.  The keys used by the server are not among the
built-in properties of strings or arrays. -/
def jsGetProp (j : Json) (key : String) : Option Json :=
  match j with
  | .obj fields => (fields.find? fun kv => kv.1 == key).map Prod.snd
  | _ => none

/-- Indexed access `v?.[i]`: array element, character of a string (as a
one-character string), or the object property named by the decimal index. -/
def jsIndex (j : Json) (i : Nat) : Option Json :=
  match j with
  | .arr l => l.get? i
  | .str s => (s.data.get? i).map fun c => .str (String.singleton c)
  | .obj fields => (fields.find? fun kv => kv.1 == toString i).map Prod.snd
  | _ => none

/-- The optional-chaining path `data?.candidates?.[0]?.content?.parts?.[0]?.text`
of part_000 lines 69-70. -/
def extractCandidateText (data : Json) : Option Json :=
  ((((jsGetProp data "candidates").bind (jsIndex · 0)).bind
      (jsGetProp · "content")).bind
    (jsGetProp · "parts")).bind (jsIndex · 0) |>.bind (jsGetProp · "text")

/-! ### Upstream Client (`callGemini`, part_000 lines 22-78) -/

/-- The fixed model identifier of part_000 line 24. -/
def geminiModel : String := "gemini-2.5-flash"

/-- The request URL of part_000 line 26; `encodeURIComponent` leaves the
model identifier (letters, digits, `-`, `.`) unchanged. -/
def geminiUrl : String :=
  "https://generativelanguage.googleapis.com/v1beta/models/" ++ geminiModel ++
    ":generateContent"

/-- JavaScript `parseInt(s, 10)`: skip leading whitespace, optional sign,
then a maximal run of decimal digits; `none` models `NaN` (no digits). -/
def jsParseInt10 (s : String) : Option Int :=
  let l := s.data.dropWhile jsIsWS
  let signed : Int × List Char :=
    match l with
    | '-' :: rest => (-1, rest)
    | '+' :: rest => (1, rest)
    | _ => (1, l)
  let ds := signed.2.takeWhile Char.isDigit
  if ds.isEmpty then none
  else some (signed.1 * (ds.foldl (fun acc c => acc * 10 + (c.toNat - 48)) 0 : Nat))

/-- The `defaultMax` computation of part_000 line 30:
`process.env.GEMINI_MAX_OUTPUT_TOKENS ? parseInt(..., 10) : 512`.
`none` models `NaN` from a non-numeric override. -/
def geminiDefaultMax (envMax : Option String) : Option Int :=
  if strTruthy envMax then jsParseInt10 (envMax.getD "") else some 512

/-- One part of a content entry of the request body (part_000 line 36). -/
structure GeminiPart where
  text : String
deriving DecidableEq

/-- One content entry of the request body (part_000 lines 33-38). -/
structure GeminiContent where
  role : String
  parts : List GeminiPart
deriving DecidableEq

/-- The `generationConfig` block of part_000 lines 41-45.  The temperature
literal `0.2` is represented exactly as the rational 1/5. -/
structure GenerationConfig where
  maxOutputTokens : Option Int
  temperature : ℚ
deriving DecidableEq

/-- The request body of part_000 lines 31-46. -/
structure GeminiRequestBody where
  contents : List GeminiContent
  generationConfig : GenerationConfig
deriving DecidableEq

/-- Construction of the request body of `callGemini` (part_000 lines 30-46)
from the max-output-tokens environment override and the prompt. -/
def buildGeminiBody (envMax : Option String) (promptText : String) : GeminiRequestBody :=
  { contents := [{ role := "user", parts := [{ text := promptText }] }],
    generationConfig :=
      { maxOutputTokens := geminiDefaultMax envMax, temperature := 1/5 } }

/-- The error thrown at part_000 line 61 on a non-2xx upstream status:
it carries `res.status` and the response body text. -/
structure GeminiError where
  status : Nat
  bodyText : String
deriving DecidableEq

/-- `String(err)` for `new Error(msg)`: the JavaScript rendering used in the
`error`/`detail` response fields (part_000 lines 176 and 204). -/
def errToString (e : GeminiError) : String :=
  "Error: Gemini API error " ++ toString e.status ++ ": " ++ e.bodyText

/-- The outcome of the single outbound HTTP call: an upstream response with
its status, raw body text (read on the error path) and parsed JSON body
(read on the success path).  The transport itself is outside the model. -/
inductive UpstreamOutcome where
  | reply (status : Nat) (bodyText : String) (json : Json)

/-- `res.ok` of the fetch response: status in the 2xx range. -/
def resOk (status : Nat) : Bool :=
  200 ≤ status && status ≤ 299

/-- Text-extraction step of `callGemini` (part_000 lines 68-77): return the
first candidate's text when that path yields a truthy value, otherwise the
whole JSON body serialized as a string.  (The `try`/`catch` around the
optional-chaining is dead: optional chaining cannot throw.) -/
def geminiExtract (data : Json) : Json :=
  match extractCandidateText data with
  | some v => if jsTruthy v then v else .str (stringifyJson data)
  | none => .str (stringifyJson data)

/-- Result of `callGemini` (part_000 lines 48-77) for a given upstream
outcome: non-2xx statuses throw a `GeminiError`; 2xx statuses return the
extracted candidate text (or the serialized body).  The request sent is
`buildGeminiBody` at the caller's prompt; the result does not depend on it. -/
def callGemini (u : UpstreamOutcome) : Except GeminiError Json :=
  match u with
  | .reply status bodyText json =>
    if resOk status then .ok (geminiExtract json) else .error ⟨status, bodyText⟩

/-! ### Route Handlers

Each handler is a pure function of the configured credential, the relevant
request-body fields (`none` models an absent field) and the outcome of the
(at most one) upstream call.  Each result records the number of upstream
calls actually performed, so that absence of calls and of retries is
provable.  The prompt strings are built exactly as in the source; the
request body they end up in is `buildGeminiBody`. -/

/-- An HTTP response with a JSON object body, as sent by `res.json`. -/
structure HandlerResult where
  status : Nat
  body : List (String × Json)
  upstreamCalls : Nat

/-- The chat prompt of part_000 line 167. -/
def chatPrompt (message : String) : String :=
  "You are FitBuddy, a concise friendly fitness coach. Answer the user's question clearly and with practical steps. If user asks for a workout, include sets/reps/time. Keep it brief.\n\nUser: " ++ message

/-- The explain prompt of part_000 lines 89 and 198. -/
def explainPrompt (mode language code : String) : String :=
  "You are a helpful code explainer. The user requested mode=" ++ mode ++
    " and language=" ++ language ++ ". Provide a clear " ++ mode ++
    " of the code below.\n\nCode:\n" ++ code

/-- The configuration-error message of part_000 line 195. -/
def configErrorMsg : String :=
  "Server is configured to use Gemini for explanations but GEMINI_API_KEY is not set. Please add GEMINI_API_KEY to your .env."

/-- The `POST /api/chat` handler, part_000 lines 155-184. -/
def chatHandler (apiKey : Option String) (message : Option String)
    (u : UpstreamOutcome) : HandlerResult :=
  if !strTruthy message then
    ⟨400, [("error", .str "No message provided")], 0⟩
  else
    let msg := message.getD ""
    if !strTruthy apiKey then
      ⟨200, [("reply", .str (localFallback msg)),
             ("source", .str "local-fallback")], 0⟩
    else
      match callGemini u with
      | .error e =>
        ⟨200, [("reply", .str (localFallback msg)),
               ("source", .str "fallback"),
               ("error", .str (errToString e))], 1⟩
      | .ok replyText =>
        ⟨200, [("reply", replyText), ("source", .str "gemini")], 1⟩

/-- The `POST /api/explain` handler, part_000 lines 188-256.  Both branches
of the `try`/`catch` around `callGemini` return, so the `naiveExplain`
definition and the `source: 'local-fallback'` response that follow them
(lines 207-252) are unreachable and contribute no case here. -/
def explainHandler (apiKey : Option String) (code mode language : Option String)
    (u : UpstreamOutcome) : HandlerResult :=
  let _mode := mode.getD "summary"
  let _language := language.getD "auto"
  if !strTruthy code then
    ⟨400, [("error", .str "No code provided")], 0⟩
  else if !strTruthy apiKey then
    ⟨400, [("error", .str configErrorMsg)], 0⟩
  else
    match callGemini u with
    | .ok explanation =>
      ⟨200, [("explanation", explanation), ("source", .str "gemini")], 1⟩
    | .error e =>
      ⟨502, [("error", .str "Gemini API error"),
             ("detail", .str (errToString e))], 1⟩

/-- A response of the streaming endpoint: either a JSON error response or a
text response whose lines were written with `res.write(c + '\n')`. -/
inductive StreamResult where
  | jsonRes (status : Nat) (body : List (String × Json)) (upstreamCalls : Nat)
  | textRes (status : Nat) (lines : List String) (upstreamCalls : Nat)

/-- The `POST /api/explain/stream` handler, part_000 lines 81-137.  A falsy
explanation is replaced by `''` (line 110); a truthy non-string explanation
would make `.split` throw, which the outer catch turns into the 500
response of line 135. -/
def streamHandler (apiKey : Option String) (code mode language : Option String)
    (u : UpstreamOutcome) : StreamResult :=
  let _mode := mode.getD "summary"
  let _language := language.getD "auto"
  if !strTruthy code then
    .jsonRes 400 [("error", .str "No code provided")] 0
  else if !strTruthy apiKey then
    .jsonRes 400 [("error", .str "GEMINI_API_KEY is not set in server environment")] 0
  else
    match callGemini u with
    | .error _ => .textRes 502 ["Error: Gemini API failed"] 1
    | .ok v =>
      match (if jsTruthy v then v else .str "") with
      | .str s => .textRes 200 ((explainChunks s.data).map String.mk) 1
      | _ => .textRes 500 ["Server error"] 1

/-- Lookup of a field of a JSON-object response body. -/
def lookupField (body : List (String × Json)) (key : String) : Option Json :=
  (body.find? fun kv => kv.1 == key).map Prod.snd

/-! ### Reassembly of chunks: joining with single spaces -/

/-- Joining a list of segments with single spaces; the reference
concatenation used to compare the chunks with the sentence list. -/
def joinSp : List (List Char) → List Char
  | [] => []
  | [s] => s
  | s :: rest => s ++ ' ' :: joinSp rest

/-- Binary single-space join; empty operands are identities, mirroring the
`buf ? buf + ' ' + s : s` update of the chunking loop. -/
def glue (x y : List Char) : List Char :=
  if x.isEmpty then y else if y.isEmpty then x else x ++ ' ' :: y

/-- The head exists and is not `\s` whitespace. -/
def headNonWS : List Char → Bool
  | [] => false
  | c :: _ => !jsIsWS c

/-- A nonempty segment that neither begins nor ends with `\s` whitespace
(so that `trim` is the identity on it). -/
def noEdgeWS (l : List Char) : Bool :=
  headNonWS l && headNonWS l.reverse

/-- A produced chunk is within the limit, or is the trimmed form of a single
over-long input sentence. -/
def chunkGood (S : List (List Char)) (c : List Char) : Prop :=
  c.length ≤ maxChunk ∨ ∃ s ∈ S, c = jsTrim s ∧ maxChunk < s.length

/-- The running buffer is empty, within the limit, or a single sentence. -/
def bufOk (S : List (List Char)) (buf : List Char) : Prop :=
  buf = [] ∨ buf.length ≤ maxChunk ∨ buf ∈ S

/-- The text represented by a loop state: the chunks already flushed,
followed (space-separated) by the pending buffer. -/
def flatState (st : List (List Char) × List Char) : List Char :=
  if st.2.isEmpty then joinSp st.1 else joinSp (st.1 ++ [st.2])

/-- A well-formed upstream response body holding the candidate text "hi". -/
def sampleGeminiResponse : Json :=
  .obj [("candidates", .arr [.obj [("content",
    .obj [("parts", .arr [.obj [("text", .str "hi")]])])]])]

/-! ### Auxiliary lemmas for the chunking proofs -/

theorem length_dropWhile_le' (p : Char → Bool) (l : List Char) :
    (l.dropWhile p).length ≤ l.length := by
  induction l with
  | nil => simp [List.dropWhile]
  | cons a t ih =>
    simp only [List.dropWhile]
    cases p a
    · simp
    · simp
      omega

theorem length_jsTrim_le (l : List Char) : (jsTrim l).length ≤ l.length := by
  unfold jsTrim
  calc ((l.dropWhile jsIsWS).reverse.dropWhile jsIsWS).reverse.length
      = ((l.dropWhile jsIsWS).reverse.dropWhile jsIsWS).length := List.length_reverse _
    _ ≤ (l.dropWhile jsIsWS).reverse.length := length_dropWhile_le' _ _
    _ = (l.dropWhile jsIsWS).length := List.length_reverse _
    _ ≤ l.length := length_dropWhile_le' _ _

theorem noEdgeWS_ne_nil {l : List Char} (h : noEdgeWS l = true) : l ≠ [] := by
  intro he; subst he; simp [noEdgeWS, headNonWS] at h

theorem jsTrim_eq_self {l : List Char} (h : noEdgeWS l = true) : jsTrim l = l := by
  have hpair : headNonWS l = true ∧ headNonWS l.reverse = true := by
    simpa [noEdgeWS] using h
  have h1 : headNonWS l = true := hpair.1
  have h2 : headNonWS l.reverse = true := hpair.2
  have e1 : l.dropWhile jsIsWS = l := by
    cases l with
    | nil => rfl
    | cons c t =>
      simp only [headNonWS, Bool.not_eq_true'] at h1
      simp [List.dropWhile, h1]
  have e2 : l.reverse.dropWhile jsIsWS = l.reverse := by
    cases hr : l.reverse with
    | nil => rfl
    | cons c t =>
      rw [hr] at h2
      simp only [headNonWS, Bool.not_eq_true'] at h2
      simp [List.dropWhile, h2]
  unfold jsTrim
  rw [e1, e2, List.reverse_reverse]

theorem headNonWS_append {l : List Char} (m : List Char) (hl : l ≠ []) :
    headNonWS (l ++ m) = headNonWS l := by
  cases l with
  | nil => exact absurd rfl hl
  | cons c t => rfl

theorem noEdgeWS_append {a b : List Char} (ha : noEdgeWS a = true)
    (hb : noEdgeWS b = true) : noEdgeWS (a ++ ' ' :: b) = true := by
  have hane : a ≠ [] := noEdgeWS_ne_nil ha
  have hbne : b ≠ [] := noEdgeWS_ne_nil hb
  have ha1 : headNonWS a = true := by
    have : headNonWS a = true ∧ headNonWS a.reverse = true := by
      simpa [noEdgeWS] using ha
    exact this.1
  have hb2 : headNonWS b.reverse = true := by
    have : headNonWS b = true ∧ headNonWS b.reverse = true := by
      simpa [noEdgeWS] using hb
    exact this.2
  have hbr : b.reverse ≠ [] := by
    intro he
    exact hbne (by simpa using congrArg List.reverse he)
  unfold noEdgeWS
  rw [headNonWS_append _ hane]
  have : (a ++ ' ' :: b).reverse = b.reverse ++ (' ' :: a.reverse) := by
    simp
  rw [this, headNonWS_append _ hbr]
  simp [ha1, hb2]

theorem joinSp_ne_nil {l : List (List Char)} (h : ∀ x ∈ l, x ≠ [])
    (hl : l ≠ []) : joinSp l ≠ [] := by
  cases l with
  | nil => exact absurd rfl hl
  | cons s t =>
    cases t with
    | nil => exact h s (by simp)
    | cons u t' =>
      simp only [joinSp]
      intro he
      exact h s (by simp) (by simpa using (List.append_eq_nil.mp he).1)

theorem glue_nil_left (y : List Char) : glue [] y = y := by simp [glue]

theorem glue_nil_right (x : List Char) : glue x [] = x := by
  by_cases h : x.isEmpty
  · simp [glue, h, List.isEmpty_iff.mp h]
  · simp [glue, h]

theorem glue_of_ne_nil {x y : List Char} (hx : x ≠ []) (hy : y ≠ []) :
    glue x y = x ++ ' ' :: y := by
  simp [glue, List.isEmpty_iff, hx, hy]

theorem glue_assoc (x y z : List Char) : glue x (glue y z) = glue (glue x y) z := by
  by_cases hx : x = []
  · subst hx; simp [glue_nil_left]
  by_cases hy : y = []
  · subst hy; simp [glue_nil_left, glue_nil_right]
  by_cases hz : z = []
  · subst hz; simp [glue_nil_right]
  have hxy : x ++ ' ' :: y ≠ [] := by simp
  have hyz : y ++ ' ' :: z ≠ [] := by simp
  rw [glue_of_ne_nil hy hz, glue_of_ne_nil hx hyz, glue_of_ne_nil hx hy,
    glue_of_ne_nil hxy hz]
  simp

theorem joinSp_cons_glue {s : List Char} {t : List (List Char)} (hs : s ≠ [])
    (ht : ∀ x ∈ t, x ≠ []) : joinSp (s :: t) = glue s (joinSp t) := by
  cases t with
  | nil => simp [joinSp, glue_nil_right]
  | cons u t' =>
    have hne : joinSp (u :: t') ≠ [] := joinSp_ne_nil ht (by simp)
    rw [glue_of_ne_nil hs hne]
    rfl

theorem joinSp_append_single {A : List (List Char)} {s : List Char}
    (hA : ∀ c ∈ A, c ≠ []) (hs : s ≠ []) :
    joinSp (A ++ [s]) = glue (joinSp A) s := by
  induction A with
  | nil => simp [joinSp, glue_nil_left]
  | cons a t ih =>
    have ha : a ≠ [] := hA a (by simp)
    have ht : ∀ c ∈ t, c ≠ [] := fun c hc => hA c (by simp [hc])
    have hts : ∀ c ∈ t ++ [s], c ≠ [] := by
      intro c hc
      rcases List.mem_append.mp hc with h | h
      · exact ht c h
      · simp at h; subst h; exact hs
    rw [List.cons_append, joinSp_cons_glue ha hts, ih ht,
      joinSp_cons_glue ha ht, glue_assoc]

/-! ### Invariants of the chunking loop -/

theorem chunkStep_inv {S : List (List Char)} {ch : List (List Char)}
    {buf s : List Char} (hs : s ∈ S) (hb : bufOk S buf)
    (hc : ∀ c ∈ ch, chunkGood S c) :
    bufOk S (chunkStep (ch, buf) s).2 ∧
      ∀ c ∈ (chunkStep (ch, buf) s).1, chunkGood S c := by
  unfold chunkStep
  by_cases hov : buf.length + 1 + s.length > maxChunk
  · rw [if_pos hov]
    by_cases hbe : buf.isEmpty
    · rw [if_pos hbe]
      refine ⟨Or.inl rfl, ?_⟩
      intro c hcm
      rcases List.mem_append.mp hcm with h | h
      · exact hc c h
      · simp at h; subst h
        by_cases hlen : s.length ≤ maxChunk
        · exact Or.inl (le_trans (length_jsTrim_le s) hlen)
        · exact Or.inr ⟨s, hs, rfl, lt_of_not_le hlen⟩
    · rw [if_neg hbe]
      have hbne : buf ≠ [] := by
        intro he; subst he; simp at hbe
      refine ⟨Or.inr (Or.inr hs), ?_⟩
      intro c hcm
      rcases List.mem_append.mp hcm with h | h
      · exact hc c h
      · simp at h; subst h
        rcases hb with h | h | h
        · exact absurd h hbne
        · exact Or.inl (le_trans (length_jsTrim_le buf) h)
        · by_cases hlen : buf.length ≤ maxChunk
          · exact Or.inl (le_trans (length_jsTrim_le buf) hlen)
          · exact Or.inr ⟨buf, h, rfl, lt_of_not_le hlen⟩
  · rw [if_neg hov]
    refine ⟨?_, hc⟩
    by_cases hbe : buf.isEmpty
    · rw [if_pos hbe]
      show bufOk S s
      have : buf.length = 0 := by
        rw [List.isEmpty_iff.mp hbe]; rfl
      exact Or.inr (Or.inl (by omega))
    · rw [if_neg hbe]
      show bufOk S (buf ++ ' ' :: s)
      have : (buf ++ ' ' :: s).length = buf.length + 1 + s.length := by
        simp; omega
      exact Or.inr (Or.inl (by omega))

theorem chunk_fold_inv {S : List (List Char)} :
    ∀ (l : List (List Char)) (ch : List (List Char)) (buf : List Char),
      (∀ s ∈ l, s ∈ S) → bufOk S buf → (∀ c ∈ ch, chunkGood S c) →
      bufOk S (l.foldl chunkStep (ch, buf)).2 ∧
        ∀ c ∈ (l.foldl chunkStep (ch, buf)).1, chunkGood S c := by
  intro l
  induction l with
  | nil => intro ch buf _ hb hc; exact ⟨hb, hc⟩
  | cons s t ih =>
    intro ch buf hl hb hc
    rw [List.foldl_cons]
    have hstep := chunkStep_inv (hl s (by simp)) hb hc
    have := ih (chunkStep (ch, buf) s).1 (chunkStep (ch, buf) s).2
      (fun x hx => hl x (by simp [hx])) hstep.1 hstep.2
    exact this

theorem flatState_nil_buf (ch : List (List Char)) :
    flatState (ch, []) = joinSp ch := by
  simp [flatState]

theorem flatState_cons_buf (ch : List (List Char)) (buf : List Char)
    (h : buf ≠ []) : flatState (ch, buf) = joinSp (ch ++ [buf]) := by
  simp [flatState, List.isEmpty_iff, h]

theorem chunkStep_flat {ch : List (List Char)} {buf s : List Char}
    (hs : noEdgeWS s = true) (hb : buf = [] ∨ noEdgeWS buf = true)
    (hch : ∀ c ∈ ch, c ≠ []) :
    ((chunkStep (ch, buf) s).2 = [] ∨ noEdgeWS (chunkStep (ch, buf) s).2 = true) ∧
      (∀ c ∈ (chunkStep (ch, buf) s).1, c ≠ []) ∧
      flatState (chunkStep (ch, buf) s) = glue (flatState (ch, buf)) s := by
  have hsne : s ≠ [] := noEdgeWS_ne_nil hs
  have hstrim : jsTrim s = s := jsTrim_eq_self hs
  unfold chunkStep
  by_cases hov : buf.length + 1 + s.length > maxChunk
  · rw [if_pos hov]
    by_cases hbe : buf.isEmpty
    · rw [if_pos hbe]
      have hbnil : buf = [] := List.isEmpty_iff.mp hbe
      subst hbnil
      refine ⟨Or.inl rfl, ?_, ?_⟩
      · intro c hcm
        rcases List.mem_append.mp hcm with h | h
        · exact hch c h
        · simp at h; subst h; rw [hstrim]; exact hsne
      · show flatState (ch ++ [jsTrim s], []) = glue (flatState (ch, [])) s
        rw [flatState_nil_buf, flatState_nil_buf, hstrim,
          joinSp_append_single hch hsne]
    · rw [if_neg hbe]
      have hbne : buf ≠ [] := by intro he; subst he; simp at hbe
      have hbok : noEdgeWS buf = true := by
        rcases hb with h | h
        · exact absurd h hbne
        · exact h
      have hbtrim : jsTrim buf = buf := jsTrim_eq_self hbok
      have hchb : ∀ c ∈ ch ++ [buf], c ≠ [] := by
        intro c hcm
        rcases List.mem_append.mp hcm with h | h
        · exact hch c h
        · simp at h; subst h; exact hbne
      refine ⟨Or.inr hs, ?_, ?_⟩
      · intro c hcm
        rw [hbtrim] at hcm
        exact hchb c hcm
      · show flatState (ch ++ [jsTrim buf], s) = glue (flatState (ch, buf)) s
        rw [hbtrim, flatState_cons_buf _ _ hsne, flatState_cons_buf _ _ hbne,
          joinSp_append_single hchb hsne]
  · rw [if_neg hov]
    by_cases hbe : buf.isEmpty
    · rw [if_pos hbe]
      have hbnil : buf = [] := List.isEmpty_iff.mp hbe
      subst hbnil
      refine ⟨Or.inr hs, hch, ?_⟩
      show flatState (ch, s) = glue (flatState (ch, [])) s
      rw [flatState_cons_buf _ _ hsne, flatState_nil_buf,
        joinSp_append_single hch hsne]
    · rw [if_neg hbe]
      have hbne : buf ≠ [] := by intro he; subst he; simp at hbe
      have hbok : noEdgeWS buf = true := by
        rcases hb with h | h
        · exact absurd h hbne
        · exact h
      have hjoin : buf ++ ' ' :: s ≠ [] := by simp
      refine ⟨Or.inr (noEdgeWS_append hbok hs), hch, ?_⟩
      show flatState (ch, buf ++ ' ' :: s) = glue (flatState (ch, buf)) s
      rw [flatState_cons_buf _ _ hjoin, flatState_cons_buf _ _ hbne,
        joinSp_append_single hch hjoin, joinSp_append_single hch hbne,
        ← glue_of_ne_nil hbne hsne, glue_assoc]

theorem chunk_fold_flat {l : List (List Char)} :
    ∀ (ch : List (List Char)) (buf : List Char),
      (∀ s ∈ l, noEdgeWS s = true) →
      (buf = [] ∨ noEdgeWS buf = true) →
      (∀ c ∈ ch, c ≠ []) →
      ((l.foldl chunkStep (ch, buf)).2 = [] ∨
          noEdgeWS (l.foldl chunkStep (ch, buf)).2 = true) ∧
        (∀ c ∈ (l.foldl chunkStep (ch, buf)).1, c ≠ []) ∧
        flatState (l.foldl chunkStep (ch, buf)) = glue (flatState (ch, buf)) (joinSp l) := by
  induction l with
  | nil =>
    intro ch buf _ hb hch
    exact ⟨hb, hch, (glue_nil_right _).symm⟩
  | cons s t ih =>
    intro ch buf hl hb hch
    have hs : noEdgeWS s = true := hl s (by simp)
    have hsne : s ≠ [] := noEdgeWS_ne_nil hs
    have ht : ∀ x ∈ t, noEdgeWS x = true := fun x hx => hl x (by simp [hx])
    have htne : ∀ x ∈ t, x ≠ [] := fun x hx => noEdgeWS_ne_nil (ht x hx)
    obtain ⟨s1, s2, s3⟩ := chunkStep_flat hs hb hch
    rw [List.foldl_cons]
    obtain ⟨r1, r2, r3⟩ := ih (chunkStep (ch, buf) s).1 (chunkStep (ch, buf) s).2 ht s1 s2
    refine ⟨r1, r2, ?_⟩
    rw [r3, s3, ← glue_assoc, ← joinSp_cons_glue hsne htne]

/-! ### Claim theorems -/

/-- C1: every chunk produced by the Chunking Splitter for any input text is
at most 240 characters long, unless it is (the trimmed form of) a single
input sentence whose own length exceeds 240 characters; sentences are
re-grouped whole, never split. -/
theorem chunk_length_bound (text : List Char) (c : List Char)
    (h : c ∈ explainChunks text) :
    c.length ≤ maxChunk ∨
      ∃ s ∈ splitSentences text, c = jsTrim s ∧ maxChunk < s.length := by
  unfold explainChunks runChunks at h
  obtain ⟨inv2, inv1⟩ := chunk_fold_inv (S := splitSentences text)
    (splitSentences text) [] [] (fun s hs => hs) (Or.inl rfl) (by simp)
  rcases hfold : (splitSentences text).foldl chunkStep ([], []) with ⟨ch, buf⟩
  rw [hfold] at h inv1 inv2
  simp only at h inv1 inv2
  by_cases hbe : buf.isEmpty
  · rw [if_pos hbe] at h
    exact inv1 c h
  · rw [if_neg hbe] at h
    have hbne : buf ≠ [] := by intro he; subst he; simp at hbe
    rcases List.mem_append.mp h with hm | hm
    · exact inv1 c hm
    · simp at hm; subst hm
      rcases inv2 with hb | hb | hb
      · exact absurd hb hbne
      · exact Or.inl (le_trans (length_jsTrim_le buf) hb)
      · by_cases hlen : buf.length ≤ maxChunk
        · exact Or.inl (le_trans (length_jsTrim_le buf) hlen)
        · exact Or.inr ⟨buf, hb, rfl, lt_of_not_le hlen⟩

/-- Witness for C1 at a concrete input: the single chunk produced for
"A. B." is in the chunk list and satisfies the bound. -/
theorem chunk_length_bound_w :
    "A. B.".data ∈ explainChunks "A. B.".data ∧
      ("A. B.".data.length ≤ maxChunk ∨
        ∃ s ∈ splitSentences "A. B.".data,
          "A. B.".data = jsTrim s ∧ maxChunk < s.length) :=
  ⟨by decide, chunk_length_bound "A. B.".data "A. B.".data (by decide)⟩

/-- C2 (amended): when every sentence segment of the input is nonempty and
has no leading or trailing whitespace, concatenating the produced chunks
with single spaces reproduces the sentences in order. -/
theorem chunks_rejoin_sentences (text : List Char)
    (h : ∀ s ∈ splitSentences text, noEdgeWS s = true) :
    joinSp (explainChunks text) = joinSp (splitSentences text) := by
  unfold explainChunks runChunks
  obtain ⟨b1, c1, feq⟩ := chunk_fold_flat (l := splitSentences text) [] [] h
    (Or.inl rfl) (by simp)
  rcases hfold : (splitSentences text).foldl chunkStep ([], []) with ⟨ch, buf⟩
  rw [hfold] at b1 c1 feq
  simp only at b1 c1 feq
  rw [flatState_nil_buf] at feq
  have hjnil : joinSp ([] : List (List Char)) = [] := rfl
  rw [hjnil, glue_nil_left] at feq
  show joinSp (if buf.isEmpty then ch else ch ++ [jsTrim buf]) =
    joinSp (splitSentences text)
  by_cases hbe : buf.isEmpty
  · rw [if_pos hbe]
    have hbnil : buf = [] := List.isEmpty_iff.mp hbe
    subst hbnil
    rw [flatState_nil_buf] at feq
    exact feq
  · rw [if_neg hbe]
    have hbne : buf ≠ [] := by intro he; subst he; simp at hbe
    have hbok : noEdgeWS buf = true := by
      rcases b1 with hb | hb
      · exact absurd hb hbne
      · exact hb
    rw [jsTrim_eq_self hbok]
    rw [flatState_cons_buf _ _ hbne] at feq
    exact feq

/-- Counterexample to C2 as stated: for the text " A." (single sentence with
a leading space) the joined chunks do not reproduce the sentence list — the
chunk is trimmed to "A.". -/
theorem chunks_rejoin_sentences_cex :
    joinSp (explainChunks " A.".data) ≠ joinSp (splitSentences " A.".data) := by
  decide

/-- Witness for the amended C2 at a concrete input. -/
theorem chunks_rejoin_sentences_w :
    (∀ s ∈ splitSentences "A. B.".data, noEdgeWS s = true) ∧
      joinSp (explainChunks "A. B.".data) = joinSp (splitSentences "A. B.".data) :=
  ⟨by decide, chunks_rejoin_sentences "A. B.".data (by decide)⟩

/-- A truthy present string field. -/
theorem strTruthy_some {s : String} (h : s ≠ "") : strTruthy (some s) = true := by
  simp [strTruthy, h]

/-- C3: with a credential configured, a non-2xx upstream status makes
`callGemini` fail with the status code and response body text; `/api/explain`
then responds 502 with `error` and `detail` fields, `/api/chat` responds 200
with the local fallback reply for the original message, `source=fallback`
and an `error` field; each handler performs exactly one upstream call
(no retry). -/
theorem upstream_error_handling (key : Option String) (msg code : String)
    (mode language : Option String) (status : Nat) (bodyText : String)
    (json : Json) (hkey : strTruthy key = true) (hmsg : msg ≠ "")
    (hcode : code ≠ "") (hstatus : resOk status = false) :
    callGemini (.reply status bodyText json) = .error ⟨status, bodyText⟩ ∧
      explainHandler key (some code) mode language (.reply status bodyText json) =
        ⟨502, [("error", .str "Gemini API error"),
               ("detail", .str (errToString ⟨status, bodyText⟩))], 1⟩ ∧
      chatHandler key (some msg) (.reply status bodyText json) =
        ⟨200, [("reply", .str (localFallback msg)),
               ("source", .str "fallback"),
               ("error", .str (errToString ⟨status, bodyText⟩))], 1⟩ := by
  have hcall : callGemini (.reply status bodyText json) = .error ⟨status, bodyText⟩ := by
    simp [callGemini, hstatus]
  refine ⟨hcall, ?_, ?_⟩
  · simp [explainHandler, strTruthy_some hcode, hkey, hcall]
  · simp [chatHandler, strTruthy_some hmsg, hkey, hcall]

/-- Witness for C3: a mocked 429 upstream response with a credential set. -/
theorem upstream_error_handling_w :
    callGemini (.reply 429 "Too Many Requests" .null) =
        .error ⟨429, "Too Many Requests"⟩ ∧
      explainHandler (some "k") (some "x=1") none none
          (.reply 429 "Too Many Requests" .null) =
        ⟨502, [("error", .str "Gemini API error"),
               ("detail", .str (errToString ⟨429, "Too Many Requests"⟩))], 1⟩ ∧
      chatHandler (some "k") (some "hello")
          (.reply 429 "Too Many Requests" .null) =
        ⟨200, [("reply", .str (localFallback "hello")),
               ("source", .str "fallback"),
               ("error", .str (errToString ⟨429, "Too Many Requests"⟩))], 1⟩ :=
  upstream_error_handling (some "k") "hello" "x=1" none none 429
    "Too Many Requests" .null (by decide) (by decide) (by decide) (by decide)

/-- C4: `/api/explain` with a (truthy) `code` field and no credential
configured responds 400 with the configuration-error message, makes no
upstream call, and in particular does not produce a heuristic local
explanation. -/
theorem explain_requires_key (key : Option String) (code : String)
    (mode language : Option String) (u : UpstreamOutcome) (hc : code ≠ "")
    (hk : strTruthy key = false) :
    explainHandler key (some code) mode language u =
      ⟨400, [("error", .str configErrorMsg)], 0⟩ := by
  simp [explainHandler, strTruthy_some hc, hk]

/-- Witness for C4 at the spec's example request. -/
theorem explain_requires_key_w :
    explainHandler none (some "x=1") none none (.reply 200 "" .null) =
      ⟨400, [("error", .str configErrorMsg)], 0⟩ :=
  explain_requires_key none "x=1" none none (.reply 200 "" .null)
    (by decide) (by decide)

/-- C5: on a parsed upstream JSON body, the client returns the text at
`candidates[0].content.parts[0].text` when that path holds a nonempty
string, and the entire body serialized by `JSON.stringify` when the path is
absent. -/
theorem gemini_extract_spec (data : Json) (t : String) :
    (extractCandidateText data = some (.str t) → t ≠ "" →
        geminiExtract data = .str t) ∧
      (extractCandidateText data = none →
        geminiExtract data = .str (stringifyJson data)) := by
  constructor
  · intro hpath ht
    simp [geminiExtract, hpath, jsTruthy, ht]
  · intro hpath
    simp [geminiExtract, hpath]

/-- Witness for C5: both the present-path case and the absent-path case at
concrete bodies. -/
theorem gemini_extract_spec_w :
    geminiExtract sampleGeminiResponse = .str "hi" ∧
      geminiExtract .null = .str (stringifyJson .null) :=
  ⟨(gemini_extract_spec sampleGeminiResponse "hi").1 rfl (by decide),
    (gemini_extract_spec .null "").2 rfl⟩

/-- C6: `/api/chat` with message "hello" and no credential configured
responds 200 with the fixed greeting reply, `source=local-fallback`, and no
upstream call, whatever the (unperformed) upstream outcome would have
been. -/
theorem chat_hello_local_fallback (u : UpstreamOutcome) :
    chatHandler none (some "hello") u =
      ⟨200, [("reply", .str greetingReply),
             ("source", .str "local-fallback")], 0⟩ := rfl

/-- Packing a `Nat` below the surrogate range gives back the same code
point. -/
theorem toNat_ofNat_lt {n : Nat} (h : n < 0xd800) : (Char.ofNat n).toNat = n := by
  have hv : n.isValidChar := Or.inl h
  rw [Char.ofNat, dif_pos hv]
  simp [Char.ofNatAux, Char.toNat, UInt32.toNat]

/-- ASCII lowercasing is idempotent. -/
theorem toLowerJS_idem (c : Char) : toLowerJS (toLowerJS c) = toLowerJS c := by
  unfold toLowerJS
  by_cases h : (65 ≤ c.toNat && c.toNat ≤ 90) = true
  · rw [if_pos h]
    simp only [Bool.and_eq_true, decide_eq_true_eq] at h
    have hval : (Char.ofNat (c.toNat + 32)).toNat = c.toNat + 32 :=
      toNat_ofNat_lt (by omega)
    rw [if_neg]
    simp only [hval, Bool.and_eq_true, decide_eq_true_eq]
    omega
  · rw [if_neg h, if_neg h]

/-- C7: the Local Fallback Responder is a pure function whose matching is
case-insensitive — lower-casing the message first never changes the reply,
and in particular "WORKOUT" gets the workout-branch reply exactly like
"workout" — and every message matching no keyword category gets the fixed
catch-all string.  (Purity and determinism are inherent to the embedding:
the responder is a function of the message alone.) -/
theorem local_fallback_behavior :
    (∀ message : String,
        localFallback (String.mk (message.data.map toLowerJS)) =
          localFallback message) ∧
      localFallback "WORKOUT" = localFallback "workout" ∧
      localFallback "WORKOUT" = workoutReply ∧
      (∀ message : String, matchesAnyCategory message = false →
        localFallback message = catchAllReply) := by
  refine ⟨?_, by decide, by decide, ?_⟩
  · intro message
    have hmap : (String.mk (message.data.map toLowerJS)).data.map toLowerJS =
        message.data.map toLowerJS := by
      show (message.data.map toLowerJS).map toLowerJS = message.data.map toLowerJS
      rw [List.map_map]
      have : toLowerJS ∘ toLowerJS = toLowerJS := funext toLowerJS_idem
      rw [this]
    unfold localFallback
    rw [hmap]
  · intro message h
    unfold matchesAnyCategory at h
    simp only [Bool.or_eq_false_iff] at h
    simp [localFallback, h.1.1, h.1.2, h.2]

/-- Witness for C7: a message matching no category gets the catch-all
reply. -/
theorem local_fallback_behavior_w :
    matchesAnyCategory "tell me a joke" = false ∧
      localFallback "tell me a joke" = catchAllReply :=
  ⟨by decide, local_fallback_behavior.2.2.2 "tell me a joke" (by decide)⟩

/-- C8: the `/api/explain` handler only ever produces the validation 400,
the configuration 400, the upstream-success 200 or the upstream-error 502;
in particular no response is tagged `source: 'local-fallback'` — the
`naiveExplain` code after the handler's unconditional return is
unreachable. -/
theorem explain_never_local_fallback (key : Option String)
    (code mode language : Option String) (u : UpstreamOutcome) :
    ((explainHandler key code mode language u).status = 400 ∨
        (explainHandler key code mode language u).status = 200 ∨
        (explainHandler key code mode language u).status = 502) ∧
      lookupField (explainHandler key code mode language u).body "source" ≠
        some (.str "local-fallback") := by
  unfold explainHandler
  by_cases h1 : strTruthy code
  · rw [if_neg (by simp [h1])]
    by_cases h2 : strTruthy key
    · rw [if_neg (by simp [h2])]
      cases hcall : callGemini u with
      | ok explanation =>
        refine ⟨Or.inr (Or.inl rfl), ?_⟩
        simp [lookupField]
      | error e =>
        refine ⟨Or.inr (Or.inr rfl), ?_⟩
        simp [lookupField]
    · rw [if_pos (by simp [Bool.not_eq_true] at h2 ⊢; exact h2)]
      refine ⟨Or.inl rfl, ?_⟩
      simp [lookupField]
  · rw [if_pos (by simp [Bool.not_eq_true] at h1 ⊢; exact h1)]
    refine ⟨Or.inl rfl, ?_⟩
    simp [lookupField]

/-- C9: the upstream request uses the fixed model identifier, carries the
prompt as the sole user-role part, and its generation-configuration block
has temperature 0.2 and max output tokens 512 by default, overridden by the
(parsed) environment variable when that is set and nonempty. -/
theorem gemini_request_body (envMax : Option String) (promptText : String) :
    geminiModel = "gemini-2.5-flash" ∧
      geminiUrl = "https://generativelanguage.googleapis.com/v1beta/models/gemini-2.5-flash:generateContent" ∧
      (buildGeminiBody envMax promptText).contents =
        [{ role := "user", parts := [{ text := promptText }] }] ∧
      (buildGeminiBody envMax promptText).generationConfig.temperature = 1/5 ∧
      (strTruthy envMax = false →
        (buildGeminiBody envMax promptText).generationConfig.maxOutputTokens =
          some 512) ∧
      (∀ n : Int, strTruthy envMax = true →
        jsParseInt10 (envMax.getD "") = some n →
        (buildGeminiBody envMax promptText).generationConfig.maxOutputTokens =
          some n) := by
  refine ⟨rfl, rfl, rfl, rfl, ?_, ?_⟩
  · intro h
    simp [buildGeminiBody, geminiDefaultMax, h]
  · intro n h1 h2
    simp [buildGeminiBody, geminiDefaultMax, h1, h2]

/-- Witness for C9: the default (unset override) and an explicit "100"
override. -/
theorem gemini_request_body_w :
    (buildGeminiBody none "p").generationConfig.maxOutputTokens = some 512 ∧
      (buildGeminiBody (some "100") "p").generationConfig.maxOutputTokens =
        some 100 :=
  ⟨(gemini_request_body none "p").2.2.2.2.1 rfl,
    (gemini_request_body (some "100") "p").2.2.2.2.2 100 (by decide) (by decide)⟩

/-- C10: required-field validation tests falsiness: an empty-string
`message` (for `/api/chat`) or `code` (for `/api/explain` and
`/api/explain/stream`) is rejected exactly like an absent field, with the
same 400 missing-field error and no upstream call. -/
theorem falsy_field_validation (key mode language : Option String)
    (u : UpstreamOutcome) :
    chatHandler key (some "") u = ⟨400, [("error", .str "No message provided")], 0⟩ ∧
      chatHandler key none u = ⟨400, [("error", .str "No message provided")], 0⟩ ∧
      explainHandler key (some "") mode language u =
        ⟨400, [("error", .str "No code provided")], 0⟩ ∧
      explainHandler key none mode language u =
        ⟨400, [("error", .str "No code provided")], 0⟩ ∧
      streamHandler key (some "") mode language u =
        .jsonRes 400 [("error", .str "No code provided")] 0 ∧
      streamHandler key none mode language u =
        .jsonRes 400 [("error", .str "No code provided")] 0 :=
  ⟨rfl, rfl, rfl, rfl, rfl, rfl⟩

end CodeBot
